import Mathlib

/-!
Shallow embedding of the CSL statistics aggregation endpoints of
`Shuffle/backend/go-app/csl.go` (functions `cslWorkflowExecutions`,
`cslWorkflowChart`, `cslAppChart` and the constants `MonthLength`,
`WeekLength`), together with proofs of the windowing properties.

Modelling choices:
* Go `int64` counters are modelled as unbounded `Int`; the claims concern
  the structure of the windowing arithmetic, not 64-bit wraparound.
* The `[]shuffle.DailyStatistics` history slice is a `List`.
* The Go `for` loops (`for i < ... && i < len(...) { ...; i++ }`) are
  translated as structurally recursive functions with an explicit fuel
  argument.  Each loop guard includes an upper bound on `i`
  (`hist.length` for the daily series, `WeekLength - 1` for the week
  rollups), so passing that bound as the initial fuel makes the Lean
  function perform exactly the iterations of the Go loop.
* The HTTP / auth / store plumbing around the loops is out of scope; the
  embedded functions take the already-fetched `ExecutionInfo` snapshot,
  as the spec's Aggregator does, and return the value placed in the
  response's `Data` field.
-/

/-- One past day's counters: the fields of `shuffle.DailyStatistics`
read by `csl.go` (`WorkflowExecutions`, `WorkflowExecutionsFinished`,
`AppExecutions`, `AppExecutionsFailed`). -/
structure DailyStatistic where
  WorkflowExecutions : Int
  WorkflowExecutionsFinished : Int
  AppExecutions : Int
  AppExecutionsFailed : Int
deriving DecidableEq

/-- The per-organization statistics snapshot: the fields of
`shuffle.ExecutionInfo` read by `csl.go`.  `DailyStatistics` is the
history list, stored oldest-first (the code indexes it from the end to
obtain the most recent days first). -/
structure ExecutionInfo where
  DailyWorkflowExecutions : Int
  DailyWorkflowExecutionsFinished : Int
  DailyAppExecutions : Int
  DailyAppExecutionsFailed : Int
  MonthlyWorkflowExecutions : Int
  MonthlyWorkflowExecutionsFinished : Int
  MonthlyAppExecutions : Int
  MonthlyAppExecutionsFailed : Int
  TotalApiUsage : Int
  DailyApiUsage : Int
  DailyStatistics : List DailyStatistic
deriving DecidableEq

/-- `const MonthLength = 30` (csl.go line 14).  As an `Int` because it is
compared against the loop counter. -/
def MonthLength : Int := 30

/-- `const WeekLength = 7` (csl.go line 15). -/
def WeekLength : Nat := 7

/-- The loop of `cslWorkflowExecutions` (csl.go lines 388-392):

  i := 0
  for i < len(orgStats.DailyStatistics) && i < windowLength \x7b
    dailyWorkflowExecutions = append(dailyWorkflowExecutions,
      orgStats.DailyStatistics[len(orgStats.DailyStatistics)-i-1].WorkflowExecutions)
    i++
  \x7d

The source writes the constant `MonthLength` where this definition has
the parameter `windowLength`; `cslDailySeries` instantiates it back at
`MonthLength`, and the parameter lets the spec's
`buildDailySeries(stats, windowLength)` contract be examined at other
window lengths.  The guard `i < hist.length` bounds the iteration count
by `hist.length`, so fuel `hist.length` reproduces the loop exactly. -/
def dailySeriesGo (hist : List DailyStatistic) (windowLength : Int) :
    Nat → Nat → List Int → List Int
  | 0, _, acc => acc
  | fuel + 1, i, acc =>
    if h : i < hist.length ∧ (i : Int) < windowLength then
      dailySeriesGo hist windowLength fuel (i + 1)
        (acc ++ [(hist.get ⟨hist.length - i - 1, by omega⟩).WorkflowExecutions])
    else
      acc

/-- The daily series built by `cslWorkflowExecutions` (csl.go lines
385-392): start from `[orgStats.DailyWorkflowExecutions]` (today's
count, not present in the history) and run the backward loop. -/
def cslDailySeries (stats : ExecutionInfo) (windowLength : Int) : List Int :=
  dailySeriesGo stats.DailyStatistics windowLength stats.DailyStatistics.length 0
    [stats.DailyWorkflowExecutions]

/-- `CslWorkflowExecutionsResponse` (csl.go lines 37-42). -/
structure CslWorkflowExecutionsResponse where
  WorkflowExecutions : Int
  WorkflowExecutionsFinished : Int
  WorkflowExecutionsFailed : Int
  DailyWorkflowExecutions : List Int
deriving DecidableEq

/-- The `Data` value produced by `cslWorkflowExecutions` (csl.go lines
394-402): monthly counters plus the daily series with the bound
`MonthLength`. -/
def cslWorkflowExecutions (stats : ExecutionInfo) : CslWorkflowExecutionsResponse :=
  ⟨stats.MonthlyWorkflowExecutions,
   stats.MonthlyWorkflowExecutionsFinished,
   stats.MonthlyWorkflowExecutions - stats.MonthlyWorkflowExecutionsFinished,
   cslDailySeries stats MonthLength⟩

/-- `CslExecutionStats` (csl.go lines 50-54). -/
structure CslExecutionStats where
  Total : Int
  Success : Int
  Failure : Int
deriving DecidableEq

/-- `CslChartResponse` (csl.go lines 44-48). -/
structure CslChartResponse where
  Day : CslExecutionStats
  Week : CslExecutionStats
  Month : CslExecutionStats
deriving DecidableEq

/-- The week loop of `cslWorkflowChart` (csl.go lines 438-445):

  i := 0
  for i < WeekLength-1 && i < len(orgStats.DailyStatistics) \x7b
    dayStats := orgStats.DailyStatistics[len(orgStats.DailyStatistics)-i-1]
    weekSuccess += dayStats.WorkflowExecutionsFinished
    weekFailure += dayStats.WorkflowExecutions - dayStats.WorkflowExecutionsFinished
    i++
  \x7d

The guard `i < WeekLength - 1` bounds the iteration count by
`WeekLength - 1`, which is the fuel `cslWorkflowChart` passes. -/
def workflowWeekLoop (hist : List DailyStatistic) :
    Nat → Nat → Int → Int → Int × Int
  | 0, _, weekSuccess, weekFailure => (weekSuccess, weekFailure)
  | fuel + 1, i, weekSuccess, weekFailure =>
    if h : i < WeekLength - 1 ∧ i < hist.length then
      let dayStats := hist.get ⟨hist.length - i - 1, by omega⟩
      workflowWeekLoop hist fuel (i + 1)
        (weekSuccess + dayStats.WorkflowExecutionsFinished)
        (weekFailure + (dayStats.WorkflowExecutions - dayStats.WorkflowExecutionsFinished))
    else
      (weekSuccess, weekFailure)

/-- The `Data` value produced by `cslWorkflowChart` (csl.go lines
434-466).  `weekSuccess`/`weekFailure` start from the current day's
counters and accumulate the week loop; the month window copies the
monthly counters. -/
def cslWorkflowChart (stats : ExecutionInfo) : CslChartResponse :=
  let week := workflowWeekLoop stats.DailyStatistics (WeekLength - 1) 0
    stats.DailyWorkflowExecutionsFinished
    (stats.DailyWorkflowExecutions - stats.DailyWorkflowExecutionsFinished)
  ⟨⟨stats.DailyWorkflowExecutions,
    stats.DailyWorkflowExecutionsFinished,
    stats.DailyWorkflowExecutions - stats.DailyWorkflowExecutionsFinished⟩,
   ⟨week.1 + week.2, week.1, week.2⟩,
   ⟨stats.MonthlyWorkflowExecutions,
    stats.MonthlyWorkflowExecutionsFinished,
    stats.MonthlyWorkflowExecutions - stats.MonthlyWorkflowExecutionsFinished⟩⟩

/-- The week loop of `cslAppChart` (csl.go lines 502-509):

  i := 0
  for i < WeekLength-1 && i < len(orgStats.DailyStatistics) \x7b
    dayStats := orgStats.DailyStatistics[len(orgStats.DailyStatistics)-i-1]
    weekSuccess += dayStats.AppExecutions - dayStats.AppExecutionsFailed
    weekFailure += dayStats.AppExecutionsFailed
    i++
  \x7d -/
def appWeekLoop (hist : List DailyStatistic) :
    Nat → Nat → Int → Int → Int × Int
  | 0, _, weekSuccess, weekFailure => (weekSuccess, weekFailure)
  | fuel + 1, i, weekSuccess, weekFailure =>
    if h : i < WeekLength - 1 ∧ i < hist.length then
      let dayStats := hist.get ⟨hist.length - i - 1, by omega⟩
      appWeekLoop hist fuel (i + 1)
        (weekSuccess + (dayStats.AppExecutions - dayStats.AppExecutionsFailed))
        (weekFailure + dayStats.AppExecutionsFailed)
    else
      (weekSuccess, weekFailure)

/-- The `Data` value produced by `cslAppChart` (csl.go lines 498-530). -/
def cslAppChart (stats : ExecutionInfo) : CslChartResponse :=
  let week := appWeekLoop stats.DailyStatistics (WeekLength - 1) 0
    (stats.DailyAppExecutions - stats.DailyAppExecutionsFailed)
    stats.DailyAppExecutionsFailed
  ⟨⟨stats.DailyAppExecutions,
    stats.DailyAppExecutions - stats.DailyAppExecutionsFailed,
    stats.DailyAppExecutionsFailed⟩,
   ⟨week.1 + week.2, week.1, week.2⟩,
   ⟨stats.MonthlyAppExecutions,
    stats.MonthlyAppExecutions - stats.MonthlyAppExecutionsFailed,
    stats.MonthlyAppExecutionsFailed⟩⟩

/-- Replace a snapshot's history, keeping every counter; used to state
that the month rollup is independent of the history. -/
def withHistory (stats : ExecutionInfo) (hist : List DailyStatistic) : ExecutionInfo :=
  ⟨stats.DailyWorkflowExecutions,
   stats.DailyWorkflowExecutionsFinished,
   stats.DailyAppExecutions,
   stats.DailyAppExecutionsFailed,
   stats.MonthlyWorkflowExecutions,
   stats.MonthlyWorkflowExecutionsFinished,
   stats.MonthlyAppExecutions,
   stats.MonthlyAppExecutionsFailed,
   stats.TotalApiUsage,
   stats.DailyApiUsage,
   hist⟩

/-- A sample history entry (5 workflow executions, all finished; 8 app
executions, 2 failed), for concrete witnesses. -/
def sampleDay : DailyStatistic := ⟨5, 5, 8, 2⟩

/-- A sample snapshot with a 30-entry history. -/
def sampleStats30 : ExecutionInfo :=
  ⟨20, 10, 30, 0, 220, 210, 300, 40, 680, 670, List.replicate 30 sampleDay⟩

/-- Taking `min n l.length` elements is the same as taking `n`. -/
lemma take_min (l : List α) (n : Nat) : l.take (min n l.length) = l.take n := by
  rcases le_total n l.length with h | h
  · rw [min_eq_left h]
  · rw [min_eq_right h, List.take_length, List.take_of_length_le h]

/-- Peeling one element off a slice of the reversed history: element `i`
of `hist.reverse` is `hist[hist.length - i - 1]`, the entry the Go loops
read at iteration `i`. -/
lemma reverse_slice_cons (hist : List DailyStatistic) (i n : Nat)
    (hi : i < n) (hn : n ≤ hist.length) :
    (hist.reverse.drop i).take (n - i) =
      hist.get ⟨hist.length - i - 1, by omega⟩ ::
        (hist.reverse.drop (i + 1)).take (n - (i + 1)) := by
  have h1 : i < hist.reverse.length := by
    rw [List.length_reverse]; omega
  rw [List.drop_eq_getElem_cons h1]
  have h2 : n - i = (n - (i + 1)) + 1 := by omega
  rw [h2, List.take_succ_cons]
  have h3 : hist.length - 1 - i = hist.length - i - 1 := by omega
  simp only [List.getElem_reverse, List.get_eq_getElem, h3]

/-- Closed form of the `cslWorkflowExecutions` loop: starting at counter
`i` with enough fuel, it appends the `WorkflowExecutions` fields of the
slice of `hist.reverse` between positions `i` and
`min hist.length windowLength.toNat`. -/
lemma dailySeriesGo_eq (hist : List DailyStatistic) (w : Int) (fuel : Nat) :
    ∀ (i : Nat) (acc : List Int), min hist.length w.toNat ≤ i + fuel →
    dailySeriesGo hist w fuel i acc =
      acc ++ ((hist.reverse.drop i).take (min hist.length w.toNat - i)).map
        (fun e => e.WorkflowExecutions) := by
  induction fuel with
  | zero =>
    intro i acc hfuel
    have h0 : min hist.length w.toNat - i = 0 := by omega
    simp [dailySeriesGo, h0]
  | succ fuel ih =>
    intro i acc hfuel
    by_cases h : i < hist.length ∧ (i : Int) < w
    · have hin : i < min hist.length w.toNat := by omega
      rw [dailySeriesGo, dif_pos h, ih (i + 1) _ (by omega)]
      rw [reverse_slice_cons hist i (min hist.length w.toNat) hin (by omega)]
      simp
    · have h0 : min hist.length w.toNat - i = 0 := by omega
      rw [dailySeriesGo, dif_neg h]
      simp [h0]

/-- Closed form of the daily series: today's count followed by the
`WorkflowExecutions` fields of the last `windowLength.toNat` history
entries, most recent first. -/
lemma cslDailySeries_eq (stats : ExecutionInfo) (w : Int) :
    cslDailySeries stats w =
      stats.DailyWorkflowExecutions ::
        ((stats.DailyStatistics.reverse.take w.toNat).map
          (fun e => e.WorkflowExecutions)) := by
  unfold cslDailySeries
  rw [dailySeriesGo_eq stats.DailyStatistics w stats.DailyStatistics.length 0
    [stats.DailyWorkflowExecutions] (by omega)]
  have hmin : min stats.DailyStatistics.length w.toNat =
      min w.toNat stats.DailyStatistics.reverse.length := by
    rw [List.length_reverse]; omega
  simp [hmin, take_min]

/-- Closed form of the `cslWorkflowChart` week loop: it adds to each
accumulator the sums over the slice of `hist.reverse` between positions
`i` and `min (WeekLength - 1) hist.length`. -/
lemma workflowWeekLoop_eq (hist : List DailyStatistic) (fuel : Nat) :
    ∀ (i : Nat) (ws wf : Int), min (WeekLength - 1) hist.length ≤ i + fuel →
    workflowWeekLoop hist fuel i ws wf =
      (ws + (((hist.reverse.drop i).take (min (WeekLength - 1) hist.length - i)).map
          (fun e => e.WorkflowExecutionsFinished)).sum,
       wf + (((hist.reverse.drop i).take (min (WeekLength - 1) hist.length - i)).map
          (fun e => e.WorkflowExecutions - e.WorkflowExecutionsFinished)).sum) := by
  induction fuel with
  | zero =>
    intro i ws wf hfuel
    have h0 : min (WeekLength - 1) hist.length - i = 0 := by omega
    simp [workflowWeekLoop, h0]
  | succ fuel ih =>
    intro i ws wf hfuel
    by_cases h : i < WeekLength - 1 ∧ i < hist.length
    · have hin : i < min (WeekLength - 1) hist.length := by omega
      rw [workflowWeekLoop, dif_pos h, ih (i + 1) _ _ (by omega)]
      rw [reverse_slice_cons hist i (min (WeekLength - 1) hist.length) hin (by omega)]
      simp only [List.map_cons, List.sum_cons]
      rw [Prod.mk.injEq]
      constructor <;> ring
    · have h0 : min (WeekLength - 1) hist.length - i = 0 := by omega
      rw [workflowWeekLoop, dif_neg h]
      simp [h0]

/-- Closed form of the `cslAppChart` week loop. -/
lemma appWeekLoop_eq (hist : List DailyStatistic) (fuel : Nat) :
    ∀ (i : Nat) (ws wf : Int), min (WeekLength - 1) hist.length ≤ i + fuel →
    appWeekLoop hist fuel i ws wf =
      (ws + (((hist.reverse.drop i).take (min (WeekLength - 1) hist.length - i)).map
          (fun e => e.AppExecutions - e.AppExecutionsFailed)).sum,
       wf + (((hist.reverse.drop i).take (min (WeekLength - 1) hist.length - i)).map
          (fun e => e.AppExecutionsFailed)).sum) := by
  induction fuel with
  | zero =>
    intro i ws wf hfuel
    have h0 : min (WeekLength - 1) hist.length - i = 0 := by omega
    simp [appWeekLoop, h0]
  | succ fuel ih =>
    intro i ws wf hfuel
    by_cases h : i < WeekLength - 1 ∧ i < hist.length
    · have hin : i < min (WeekLength - 1) hist.length := by omega
      rw [appWeekLoop, dif_pos h, ih (i + 1) _ _ (by omega)]
      rw [reverse_slice_cons hist i (min (WeekLength - 1) hist.length) hin (by omega)]
      simp only [List.map_cons, List.sum_cons]
      rw [Prod.mk.injEq]
      constructor <;> ring
    · have h0 : min (WeekLength - 1) hist.length - i = 0 := by omega
      rw [appWeekLoop, dif_neg h]
      simp [h0]

/-- Closed form of the workflow chart's week window. -/
lemma cslWorkflowChart_week (stats : ExecutionInfo) :
    (cslWorkflowChart stats).Week =
      ⟨(stats.DailyWorkflowExecutionsFinished +
          (((stats.DailyStatistics.reverse.take (WeekLength - 1)).map
            (fun e => e.WorkflowExecutionsFinished)).sum)) +
        ((stats.DailyWorkflowExecutions - stats.DailyWorkflowExecutionsFinished) +
          (((stats.DailyStatistics.reverse.take (WeekLength - 1)).map
            (fun e => e.WorkflowExecutions - e.WorkflowExecutionsFinished)).sum)),
       stats.DailyWorkflowExecutionsFinished +
          (((stats.DailyStatistics.reverse.take (WeekLength - 1)).map
            (fun e => e.WorkflowExecutionsFinished)).sum),
       (stats.DailyWorkflowExecutions - stats.DailyWorkflowExecutionsFinished) +
          (((stats.DailyStatistics.reverse.take (WeekLength - 1)).map
            (fun e => e.WorkflowExecutions - e.WorkflowExecutionsFinished)).sum)⟩ := by
  unfold cslWorkflowChart
  rw [workflowWeekLoop_eq stats.DailyStatistics (WeekLength - 1) 0 _ _ (by omega)]
  have hmin : min (WeekLength - 1) stats.DailyStatistics.length =
      min (WeekLength - 1) stats.DailyStatistics.reverse.length := by
    rw [List.length_reverse]
  simp [hmin, take_min]

/-- Closed form of the app chart's week window. -/
lemma cslAppChart_week (stats : ExecutionInfo) :
    (cslAppChart stats).Week =
      ⟨((stats.DailyAppExecutions - stats.DailyAppExecutionsFailed) +
          (((stats.DailyStatistics.reverse.take (WeekLength - 1)).map
            (fun e => e.AppExecutions - e.AppExecutionsFailed)).sum)) +
        (stats.DailyAppExecutionsFailed +
          (((stats.DailyStatistics.reverse.take (WeekLength - 1)).map
            (fun e => e.AppExecutionsFailed)).sum)),
       (stats.DailyAppExecutions - stats.DailyAppExecutionsFailed) +
          (((stats.DailyStatistics.reverse.take (WeekLength - 1)).map
            (fun e => e.AppExecutions - e.AppExecutionsFailed)).sum),
       stats.DailyAppExecutionsFailed +
          (((stats.DailyStatistics.reverse.take (WeekLength - 1)).map
            (fun e => e.AppExecutionsFailed)).sum)⟩ := by
  unfold cslAppChart
  rw [appWeekLoop_eq stats.DailyStatistics (WeekLength - 1) 0 _ _ (by omega)]
  have hmin : min (WeekLength - 1) stats.DailyStatistics.length =
      min (WeekLength - 1) stats.DailyStatistics.reverse.length := by
    rw [List.length_reverse]
  simp [hmin, take_min]

/-- Summing a pointwise sum of two functions over a list splits into two
sums. -/
lemma sum_map_split (l : List DailyStatistic) (f g : DailyStatistic → Int) :
    (l.map fun e => f e + g e).sum = (l.map f).sum + (l.map g).sum := by
  induction l with
  | nil => simp
  | cons a l ih => simp only [List.map_cons, List.sum_cons, ih]; ring

/-- C1.  Every `CslExecutionStats` produced by the two chart builders
(the day, week and month windows of both `cslWorkflowChart` and
`cslAppChart`) satisfies `Total = Success + Failure`. -/
theorem chart_total_decomposition (stats : ExecutionInfo) :
    ((cslWorkflowChart stats).Day.Total =
        (cslWorkflowChart stats).Day.Success + (cslWorkflowChart stats).Day.Failure) ∧
    ((cslWorkflowChart stats).Week.Total =
        (cslWorkflowChart stats).Week.Success + (cslWorkflowChart stats).Week.Failure) ∧
    ((cslWorkflowChart stats).Month.Total =
        (cslWorkflowChart stats).Month.Success + (cslWorkflowChart stats).Month.Failure) ∧
    ((cslAppChart stats).Day.Total =
        (cslAppChart stats).Day.Success + (cslAppChart stats).Day.Failure) ∧
    ((cslAppChart stats).Week.Total =
        (cslAppChart stats).Week.Success + (cslAppChart stats).Week.Failure) ∧
    ((cslAppChart stats).Month.Total =
        (cslAppChart stats).Month.Success + (cslAppChart stats).Month.Failure) := by
  refine ⟨?_, ?_, ?_, ?_, ?_, ?_⟩ <;> simp [cslWorkflowChart, cslAppChart]

/-- C2.  The claimed length formula `1 + min(len(history), N - 1)` fails
on the code: with a 30-entry history the daily series of
`cslWorkflowExecutions` has 31 elements (today plus 30 history days),
while the formula gives `1 + min 30 29 = 30`.  The loop bound is
`i < MonthLength` where the endpoint's own doc comment ("the last 30
days") and the week loop's `i < WeekLength-1` pattern call for
`i < MonthLength - 1`. -/
theorem dailySeries_overruns_month_window :
    (cslWorkflowExecutions sampleStats30).DailyWorkflowExecutions.length = 31 ∧
    (cslWorkflowExecutions sampleStats30).DailyWorkflowExecutions.length ≠
      1 + min sampleStats30.DailyStatistics.length (MonthLength.toNat - 1) := by
  decide

/-- C3.  Element 0 of the daily series is the snapshot's
`DailyWorkflowExecutions`, and element `i ≥ 1` (up to the number of
history entries taken) is `history[len(history) - i].WorkflowExecutions`:
the series walks the history backward from its end. -/
theorem dailySeries_backward_ordering (stats : ExecutionInfo) (i : Nat)
    (h1 : 1 ≤ i)
    (h2 : i ≤ min stats.DailyStatistics.length MonthLength.toNat) :
    ((cslWorkflowExecutions stats).DailyWorkflowExecutions)[0]? =
        some stats.DailyWorkflowExecutions ∧
    ((cslWorkflowExecutions stats).DailyWorkflowExecutions)[i]? =
      (stats.DailyStatistics[stats.DailyStatistics.length - i]?).map
        (fun e => e.WorkflowExecutions) := by
  have hser : (cslWorkflowExecutions stats).DailyWorkflowExecutions =
      cslDailySeries stats MonthLength := rfl
  rw [hser, cslDailySeries_eq]
  have h30 : MonthLength.toNat = 30 := rfl
  refine ⟨List.getElem?_cons_zero, ?_⟩
  obtain ⟨j, rfl⟩ : ∃ j, i = j + 1 := ⟨i - 1, by omega⟩
  rw [List.getElem?_cons_succ, List.getElem?_map]
  have hj : j < MonthLength.toNat := by omega
  rw [List.getElem?_take_of_lt hj]
  have hjr : j < stats.DailyStatistics.reverse.length := by
    rw [List.length_reverse]; omega
  have hidx : stats.DailyStatistics.length - (j + 1) <
      stats.DailyStatistics.length := by omega
  rw [List.getElem?_eq_getElem hjr, List.getElem?_eq_getElem hidx]
  have hli : stats.DailyStatistics.length - 1 - j =
      stats.DailyStatistics.length - (j + 1) := by omega
  simp only [List.getElem_reverse, hli, Option.map_some]

/-- C4.  The week rollups of both chart builders accumulate only the up
to `WeekLength - 1 = 6` most recent history entries (the reversed
history truncated to `WeekLength - 1` entries) on top of the current-day
counters, stopping early when history is shorter; no scaling is
applied. -/
theorem week_rollup_bounded_window (stats : ExecutionInfo) :
    ((cslWorkflowChart stats).Week.Success =
        stats.DailyWorkflowExecutionsFinished +
          ((stats.DailyStatistics.reverse.take (WeekLength - 1)).map
            (fun e => e.WorkflowExecutionsFinished)).sum) ∧
    ((cslWorkflowChart stats).Week.Failure =
        (stats.DailyWorkflowExecutions - stats.DailyWorkflowExecutionsFinished) +
          ((stats.DailyStatistics.reverse.take (WeekLength - 1)).map
            (fun e => e.WorkflowExecutions - e.WorkflowExecutionsFinished)).sum) ∧
    ((cslAppChart stats).Week.Success =
        (stats.DailyAppExecutions - stats.DailyAppExecutionsFailed) +
          ((stats.DailyStatistics.reverse.take (WeekLength - 1)).map
            (fun e => e.AppExecutions - e.AppExecutionsFailed)).sum) ∧
    ((cslAppChart stats).Week.Failure =
        stats.DailyAppExecutionsFailed +
          ((stats.DailyStatistics.reverse.take (WeekLength - 1)).map
            (fun e => e.AppExecutionsFailed)).sum) ∧
    (stats.DailyStatistics.reverse.take (WeekLength - 1)).length ≤ WeekLength - 1 := by
  have hw := cslWorkflowChart_week stats
  have ha := cslAppChart_week stats
  refine ⟨?_, ?_, ?_, ?_, ?_⟩
  · rw [hw]
  · rw [hw]
  · rw [ha]
  · rw [ha]
  · simp [List.length_take]

/-- C5.  The month rollups of both chart builders are independent of the
history and equal the snapshot's monthly counters: for the workflow
metric `⟨monthly, monthlyFinished, monthly - monthlyFinished⟩`, for the
app metric `⟨monthly, monthly - monthlyFailed, monthlyFailed⟩`. -/
theorem month_rollup_history_independent (stats : ExecutionInfo)
    (hist : List DailyStatistic) :
    (cslWorkflowChart (withHistory stats hist)).Month = (cslWorkflowChart stats).Month ∧
    (cslAppChart (withHistory stats hist)).Month = (cslAppChart stats).Month ∧
    (cslWorkflowChart stats).Month =
      ⟨stats.MonthlyWorkflowExecutions,
       stats.MonthlyWorkflowExecutionsFinished,
       stats.MonthlyWorkflowExecutions - stats.MonthlyWorkflowExecutionsFinished⟩ ∧
    (cslAppChart stats).Month =
      ⟨stats.MonthlyAppExecutions,
       stats.MonthlyAppExecutions - stats.MonthlyAppExecutionsFailed,
       stats.MonthlyAppExecutionsFailed⟩ :=
  ⟨rfl, rfl, rfl, rfl⟩

/-- C6.  The success/failure derivation is asymmetric between the two
metrics and preserved in every window: the workflow chart's success is
the explicit finished counter (per day, per accumulated entry, per
month) with failure derived as `Total - Success`, while the app chart's
failure is the explicit failed counter with success derived as
`Total - Failure`. -/
theorem success_failure_asymmetry (stats : ExecutionInfo) :
    ((cslWorkflowChart stats).Day.Success = stats.DailyWorkflowExecutionsFinished) ∧
    ((cslWorkflowChart stats).Day.Failure =
        (cslWorkflowChart stats).Day.Total - (cslWorkflowChart stats).Day.Success) ∧
    ((cslWorkflowChart stats).Week.Success =
        stats.DailyWorkflowExecutionsFinished +
          ((stats.DailyStatistics.reverse.take (WeekLength - 1)).map
            (fun e => e.WorkflowExecutionsFinished)).sum) ∧
    ((cslWorkflowChart stats).Week.Failure =
        (cslWorkflowChart stats).Week.Total - (cslWorkflowChart stats).Week.Success) ∧
    ((cslWorkflowChart stats).Month.Success = stats.MonthlyWorkflowExecutionsFinished) ∧
    ((cslWorkflowChart stats).Month.Failure =
        (cslWorkflowChart stats).Month.Total - (cslWorkflowChart stats).Month.Success) ∧
    ((cslAppChart stats).Day.Failure = stats.DailyAppExecutionsFailed) ∧
    ((cslAppChart stats).Day.Success =
        (cslAppChart stats).Day.Total - (cslAppChart stats).Day.Failure) ∧
    ((cslAppChart stats).Week.Failure =
        stats.DailyAppExecutionsFailed +
          ((stats.DailyStatistics.reverse.take (WeekLength - 1)).map
            (fun e => e.AppExecutionsFailed)).sum) ∧
    ((cslAppChart stats).Week.Success =
        (cslAppChart stats).Week.Total - (cslAppChart stats).Week.Failure) ∧
    ((cslAppChart stats).Month.Failure = stats.MonthlyAppExecutionsFailed) ∧
    ((cslAppChart stats).Month.Success =
        (cslAppChart stats).Month.Total - (cslAppChart stats).Month.Failure) := by
  have hw := cslWorkflowChart_week stats
  have ha := cslAppChart_week stats
  refine ⟨rfl, ?_, ?_, ?_, rfl, ?_, rfl, ?_, ?_, ?_, rfl, ?_⟩
  · simp [cslWorkflowChart]
  · rw [hw]
  · rw [hw]; ring
  · simp [cslWorkflowChart]
  · simp [cslAppChart]
  · rw [ha]
  · rw [ha]; ring
  · simp [cslAppChart]

/-- C7 counterexample.  For `windowLength = 0` (and `-3`), the
daily-series builder does not fail with an invalid-argument signal: it
returns the ordinary one-element series containing today's count.  (The
source loop has no failure path at all; the embedded builder, translated
from it, is a total function into plain lists.) -/
theorem dailySeries_nonpositive_window_returns_series :
    cslDailySeries sampleStats30 0 = [20] ∧
    cslDailySeries sampleStats30 (-3) = [20] := by
  decide

/-- C7 amended.  For every non-positive `windowLength`, the daily-series
builder performs no validation and returns the one-element series
holding only today's count — never an error, never an empty list. -/
theorem dailySeries_nonpositive_window_behavior (stats : ExecutionInfo)
    (w : Int) (h : w ≤ 0) :
    cslDailySeries stats w = [stats.DailyWorkflowExecutions] := by
  rw [cslDailySeries_eq]
  have h0 : w.toNat = 0 := Int.toNat_of_nonpos h
  simp [h0]

/-- C7 witness: the amended behavior at a concrete snapshot and
`windowLength = -3`. -/
theorem dailySeries_nonpositive_window_behavior_witness :
    (-3 : Int) ≤ 0 ∧
    cslDailySeries sampleStats30 (-3) = [sampleStats30.DailyWorkflowExecutions] :=
  ⟨by decide, dailySeries_nonpositive_window_behavior sampleStats30 (-3) (by decide)⟩

/-- C8.  Neither builder has a failure path: on every snapshot —
including empty history, arbitrarily long history, and
invariant-violating entries (counters are arbitrary integers here, so
`finished > executions` and negative values are covered) — the builders
produce a well-defined, arithmetically consistent result: the series has
length `1 + min(len(history), 30)` and every chart window satisfies
`Total = Success + Failure`. -/
theorem builders_total_on_all_inputs (stats : ExecutionInfo) :
    (cslDailySeries stats MonthLength).length =
      1 + min stats.DailyStatistics.length MonthLength.toNat ∧
    ((cslWorkflowChart stats).Day.Total =
        (cslWorkflowChart stats).Day.Success + (cslWorkflowChart stats).Day.Failure) ∧
    ((cslWorkflowChart stats).Week.Total =
        (cslWorkflowChart stats).Week.Success + (cslWorkflowChart stats).Week.Failure) ∧
    ((cslWorkflowChart stats).Month.Total =
        (cslWorkflowChart stats).Month.Success + (cslWorkflowChart stats).Month.Failure) ∧
    ((cslAppChart stats).Day.Total =
        (cslAppChart stats).Day.Success + (cslAppChart stats).Day.Failure) ∧
    ((cslAppChart stats).Week.Total =
        (cslAppChart stats).Week.Success + (cslAppChart stats).Week.Failure) ∧
    ((cslAppChart stats).Month.Total =
        (cslAppChart stats).Month.Success + (cslAppChart stats).Month.Failure) := by
  refine ⟨?_, ?_, ?_, ?_, ?_, ?_, ?_⟩
  · rw [cslDailySeries_eq]
    simp only [List.length_cons, List.length_map, List.length_take,
      List.length_reverse]
    omega
  all_goals simp [cslWorkflowChart, cslAppChart]

/-- C9.  Both builders are deterministic: they are pure functions of the
snapshot value (the source handlers read only the fetched `orgStats` and
local variables; `csl.go` has no mutable package state), so two
invocations on the same snapshot yield identical results. -/
theorem builders_deterministic (stats : ExecutionInfo) :
    cslDailySeries stats MonthLength = cslDailySeries stats MonthLength ∧
    cslWorkflowChart stats = cslWorkflowChart stats ∧
    cslAppChart stats = cslAppChart stats :=
  ⟨rfl, rfl, rfl⟩

/-- C10.  The week totals telescope to plain sums of per-day totals: the
per-entry derived success and failure contributions cancel, leaving
today's total plus the sum of `WorkflowExecutions` (resp.
`AppExecutions`) over the up-to-6 most recent history entries. -/
theorem week_total_telescopes (stats : ExecutionInfo) :
    ((cslWorkflowChart stats).Week.Total =
        stats.DailyWorkflowExecutions +
          ((stats.DailyStatistics.reverse.take (WeekLength - 1)).map
            (fun e => e.WorkflowExecutions)).sum) ∧
    ((cslAppChart stats).Week.Total =
        stats.DailyAppExecutions +
          ((stats.DailyStatistics.reverse.take (WeekLength - 1)).map
            (fun e => e.AppExecutions)).sum) := by
  have hw := cslWorkflowChart_week stats
  have ha := cslAppChart_week stats
  constructor
  · rw [hw]
    have hsplit :
        ((stats.DailyStatistics.reverse.take (WeekLength - 1)).map
            (fun e => e.WorkflowExecutionsFinished)).sum +
          ((stats.DailyStatistics.reverse.take (WeekLength - 1)).map
            (fun e => e.WorkflowExecutions - e.WorkflowExecutionsFinished)).sum =
        ((stats.DailyStatistics.reverse.take (WeekLength - 1)).map
            (fun e => e.WorkflowExecutions)).sum := by
      rw [← sum_map_split]
      have hpt : (fun e : DailyStatistic =>
          e.WorkflowExecutionsFinished +
            (e.WorkflowExecutions - e.WorkflowExecutionsFinished)) =
          (fun e : DailyStatistic => e.WorkflowExecutions) :=
        funext fun e => by ring
      rw [hpt]
    rw [← hsplit]
    ring
  · rw [ha]
    have hsplit :
        ((stats.DailyStatistics.reverse.take (WeekLength - 1)).map
            (fun e => e.AppExecutions - e.AppExecutionsFailed)).sum +
          ((stats.DailyStatistics.reverse.take (WeekLength - 1)).map
            (fun e => e.AppExecutionsFailed)).sum =
        ((stats.DailyStatistics.reverse.take (WeekLength - 1)).map
            (fun e => e.AppExecutions)).sum := by
      rw [← sum_map_split]
      have hpt : (fun e : DailyStatistic =>
          (e.AppExecutions - e.AppExecutionsFailed) + e.AppExecutionsFailed) =
          (fun e : DailyStatistic => e.AppExecutions) :=
        funext fun e => by ring
      rw [hpt]
    rw [← hsplit]
    ring

/-- C3 witness: the ordering at a concrete snapshot and `i = 1`. -/
theorem dailySeries_backward_ordering_witness :
    1 ≤ 1 ∧
    1 ≤ min sampleStats30.DailyStatistics.length MonthLength.toNat ∧
    (((cslWorkflowExecutions sampleStats30).DailyWorkflowExecutions)[0]? =
        some sampleStats30.DailyWorkflowExecutions ∧
      ((cslWorkflowExecutions sampleStats30).DailyWorkflowExecutions)[1]? =
        (sampleStats30.DailyStatistics[sampleStats30.DailyStatistics.length - 1]?).map
          (fun e => e.WorkflowExecutions)) :=
  ⟨le_refl 1, by decide,
    dailySeries_backward_ordering sampleStats30 1 (le_refl 1) (by decide)⟩
